import Mathlib

/-!
Shallow embedding of the benchmark-analysis scripts
`src/analysis/extract_real_data_only.py` and
`src/validation/validate_calculations.py`.

Floating-point values are modelled as exact rationals.  The Student-t
quantile and the square root, which the scripts obtain from scipy/numpy,
are abstract function parameters, since their values never matter for
the structural properties proved here.
-/

namespace Bench

/-- One benchmark measurement record: the union of the fields the two
scripts read (spec section 3).  All numeric fields are modelled as total
rationals. -/
structure Measurement where
  model : String
  cores : Nat
  batch_size : Nat
  latency_ms : Rat
  throughput_fps : Rat
  power_watts : Rat
  efficiency_fps_per_watt : Rat
  temperature_celsius : Rat
deriving DecidableEq, Repr

/-- Substring test, modelling the Python expression `needle in haystack`
on strings. -/
def strContains (hay needle : String) : Bool :=
  decide (needle.toList <:+: hay.toList)

/-- Embedding of `RealDataExtractor._extract_cores_from_config`
(extract_real_data_only.py lines 82-91). -/
def extract_cores_from_config (config : String) : Nat :=
  if strContains config "cores1" then 1
  else if strContains config "cores2" then 2
  else if strContains config "cores4" then 4
  else 1

/-- Embedding of `RealDataExtractor._extract_batch_from_config`
(extract_real_data_only.py lines 93-104). -/
def extract_batch_from_config (config : String) : Nat :=
  if strContains config "batch1" then 1
  else if strContains config "batch4" then 4
  else if strContains config "batch8" then 8
  else if strContains config "batch16" then 16
  else 1

/-- Expected efficiency `throughput / power`, guarded by `power > 0`;
both scripts compute it this way (extract_real_data_only.py line 250,
validate_calculations.py line 64). -/
def expected_efficiency (m : Measurement) : Rat :=
  if m.power_watts > 0 then m.throughput_fps / m.power_watts else 0

/-- Strict efficiency-consistency check of
`RealDataExtractor.validate_measurements` (lines 249-254): tolerance
`max 0.001 (efficiency * 0.001)`, pass when the absolute difference
between expected and recorded efficiency is within tolerance. -/
def efficiency_check_strict (m : Measurement) : Prop :=
  |expected_efficiency m - m.efficiency_fps_per_watt| ≤
    max 0.001 (m.efficiency_fps_per_watt * 0.001)

/-- Loose efficiency-consistency failure flag of
`validate_mathematical_consistency` (validate_calculations.py lines
63-76): the measurement is flagged exactly when the error exceeds the
absolute tolerance 0.01 and the recorded efficiency is positive. -/
def efficiency_fail_loose (m : Measurement) : Prop :=
  |m.efficiency_fps_per_watt - expected_efficiency m| > 0.01 ∧
    m.efficiency_fps_per_watt > 0

/-- Parametric tolerance formula in the spec's words: pass when
`|expected - efficiency| <= max absFloor (efficiency * relTol)`. -/
def efficiency_check_spec (absFloor relTol : Rat) (m : Measurement) : Prop :=
  |expected_efficiency m - m.efficiency_fps_per_watt| ≤
    max absFloor (m.efficiency_fps_per_watt * relTol)

instance (m : Measurement) : Decidable (efficiency_check_strict m) := by
  unfold efficiency_check_strict; infer_instance

instance (m : Measurement) : Decidable (efficiency_fail_loose m) := by
  unfold efficiency_fail_loose; infer_instance

instance (absFloor relTol : Rat) (m : Measurement) :
    Decidable (efficiency_check_spec absFloor relTol m) := by
  unfold efficiency_check_spec; infer_instance

/-- Arithmetic mean (numpy/pandas mean): sum divided by length. -/
def mean (xs : List Rat) : Rat := xs.sum / xs.length

/-- Bessel-corrected sample variance, the square of
`pandas.Series.std()` and of `numpy.std(..., ddof=1)`: one degree of
freedom is subtracted in the denominator. -/
def sampleVariance (xs : List Rat) : Rat :=
  ((xs.map fun x => (x - mean xs) ^ 2).sum) / ((xs.length : Rat) - 1)

/-- Sample standard deviation: square root of the Bessel-corrected
variance, with the square root as an abstract parameter. -/
def sampleStd (sqrt : Rat → Rat) (xs : List Rat) : Rat :=
  sqrt (sampleVariance xs)

/-- Confidence-interval computation shared by both scripts
(extract_real_data_only.py lines 131-137 and 146-150,
validate_calculations.py lines 175-187): `t_critical` is the Student-t
quantile at `(1 + 0.95) / 2` with `n - 1` degrees of freedom, the margin
of error is `t_critical * (std / sqrt n)`, and the interval is
`(mean - margin, mean + margin)`.  Returns (lower, upper, margin). -/
def confidence_interval_95 (tppf : Nat → Rat) (sqrt : Rat → Rat)
    (xs : List Rat) : Rat × Rat × Rat :=
  let n := xs.length
  let sample_mean := mean xs
  let sample_std := sampleStd sqrt xs
  let t_critical := tppf (n - 1)
  let margin_of_error := t_critical * (sample_std / sqrt (n : Rat))
  (sample_mean - margin_of_error, sample_mean + margin_of_error, margin_of_error)

/-- Margin of error written from the spec's words, for comparison with
the source computation: the Student-t quantile at 0.975 with `n - 1`
degrees of freedom, times the Bessel-corrected sample standard deviation
(one degree of freedom subtracted), divided by the square root of `n`. -/
def margin_of_error_spec (tppf : Nat → Rat) (sqrt : Rat → Rat)
    (xs : List Rat) : Rat :=
  tppf (xs.length - 1) *
    (sqrt (((xs.map fun x => (x - mean xs) ^ 2).sum) / ((xs.length : Rat) - 1)) /
      sqrt (xs.length : Rat))

/-- C1: for every metric series with at least 2 samples, the computed
95% confidence interval equals `[mean - margin, mean + margin]` where
`margin = t(0.975, n-1) * std / sqrt n` and `std` is the
Bessel-corrected sample standard deviation. -/
theorem c1_confidence_interval (tppf : Nat → Rat) (sqrt : Rat → Rat)
    (xs : List Rat) (h : 2 ≤ xs.length) :
    confidence_interval_95 tppf sqrt xs =
      (mean xs - margin_of_error_spec tppf sqrt xs,
       mean xs + margin_of_error_spec tppf sqrt xs,
       margin_of_error_spec tppf sqrt xs) := rfl

/-- Witness for C1 at the two-sample series `[1, 3]`, with concrete
stand-ins for the quantile and the square root. -/
theorem c1_confidence_interval_witness :
    2 ≤ ([1, 3] : List Rat).length ∧
      confidence_interval_95 (fun _ => 2) id [1, 3] =
        (mean [1, 3] - margin_of_error_spec (fun _ => 2) id [1, 3],
         mean [1, 3] + margin_of_error_spec (fun _ => 2) id [1, 3],
         margin_of_error_spec (fun _ => 2) id [1, 3]) :=
  ⟨by norm_num, c1_confidence_interval (fun _ => 2) id [1, 3] (by norm_num)⟩

/-- C2: the strict regime of the efficiency-consistency check is the
spec formula with absolute floor 0.001 and relative tolerance 0.1%, and
the loose regime passes exactly when the efficiency is nonpositive (the
check is skipped) or the spec formula holds with absolute floor 0.01 and
no relative term. -/
theorem c2_efficiency_tolerance_regimes (m : Measurement) :
    (efficiency_check_strict m ↔ efficiency_check_spec 0.001 0.001 m) ∧
    (¬ efficiency_fail_loose m ↔
      (m.efficiency_fps_per_watt ≤ 0 ∨ efficiency_check_spec 0.01 0 m)) := by
  refine ⟨Iff.rfl, ?_⟩
  unfold efficiency_fail_loose efficiency_check_spec
  rw [abs_sub_comm]
  have hmax : max (0.01 : Rat) (m.efficiency_fps_per_watt * 0) = 0.01 := by
    rw [mul_zero]; exact max_eq_left (by norm_num)
  rw [hmax]
  push_neg
  constructor
  · intro h
    rcases le_or_lt |expected_efficiency m - m.efficiency_fps_per_watt| 0.01 with
      hle | hgt
    · exact Or.inr hle
    · exact Or.inl (h hgt)
  · intro h hgt
    rcases h with he | hle
    · exact he
    · exact absurd hgt (not_lt.mpr hle)

/-- C9 (code bug): the `batch16` marker is shadowed because `batch1` is
a substring of `batch16` and is tested first, so a label carrying the
`batch16` marker is parsed as batch size 1; the `cores4` marker and the
default for unrecognized labels behave as described. -/
theorem c9_batch16_marker_shadowed :
    extract_batch_from_config "resnet18_cores4_batch16" = 1 ∧
    extract_cores_from_config "resnet18_cores4_batch16" = 4 ∧
    extract_cores_from_config "unrecognized-label" = 1 ∧
    extract_batch_from_config "unrecognized-label" = 1 := by
  decide

/-- Throughput-consistency failure flag of
`validate_mathematical_consistency` (validate_calculations.py lines
78-92): with positive latency, the expected throughput is
`batch_size / (latency_ms / 1000)` and the measurement is flagged when
the absolute error exceeds `throughput * 0.05`. -/
def throughput_fail (m : Measurement) : Prop :=
  m.latency_ms > 0 ∧
    |m.throughput_fps - (m.batch_size : Rat) / (m.latency_ms / 1000)| >
      m.throughput_fps * 0.05

instance (m : Measurement) : Decidable (throughput_fail m) := by
  unfold throughput_fail; infer_instance

/-- Number of failure entries one measurement appends in
`validate_mathematical_consistency`: one possible per check. -/
def consistency_fail_count (m : Measurement) : Nat :=
  (if efficiency_fail_loose m then 1 else 0) +
  (if throughput_fail m then 1 else 0)

/-- The `consistency_checks` counter (validate_calculations.py line 54):
incremented once per measurement. -/
def consistency_checks (ms : List Measurement) : Nat :=
  ms.foldl (fun acc _ => acc + 1) 0

/-- The `consistency_failures` counter (lines 69 and 85): incremented
once per failed check. -/
def consistency_failures (ms : List Measurement) : Nat :=
  ms.foldl (fun acc m => acc + consistency_fail_count m) 0

/-- Success rate, line 95: `(checks - failures) / checks * 100`.
Modelled fallibly: Python raises `ZeroDivisionError` when the number of
checks is zero, which is the `none` case here. -/
def consistency_success_rate (ms : List Measurement) : Option Rat :=
  if consistency_checks ms = 0 then none
  else
    some (((consistency_checks ms : Rat) - (consistency_failures ms : Rat)) /
      (consistency_checks ms : Rat) * 100)

theorem consistency_checks_add (ms : List Measurement) (n : Nat) :
    ms.foldl (fun acc _ => acc + 1) n = n + ms.length := by
  induction ms generalizing n with
  | nil => simp
  | cons m ms ih => simp [List.foldl_cons, ih, Nat.add_assoc, Nat.add_comm 1]

theorem consistency_failures_add (ms : List Measurement) (n : Nat) :
    ms.foldl (fun acc m => acc + consistency_fail_count m) n =
      n + (ms.map consistency_fail_count).sum := by
  induction ms generalizing n with
  | nil => simp
  | cons m ms ih => simp [List.foldl_cons, ih, Nat.add_assoc]

/-- Measurement used for C10: its recorded efficiency (5) disagrees with
throughput/power (100/10 = 10) and its recorded throughput (100)
disagrees with batch/latency (1 / 1 s = 1), so both checks fail. -/
def c10m : Measurement :=
  ⟨"m", 1, 1, 1000, 100, 10, 5, 50⟩

/-- C10: each measurement increments the total-checks counter by exactly
one, while a single measurement can append two failure entries, so the
failures can exceed the checks and the success rate can be negative. -/
theorem c10_failures_can_exceed_checks :
    (∀ ms : List Measurement, consistency_checks ms = ms.length) ∧
    consistency_fail_count c10m = 2 ∧
    consistency_checks [c10m] = 1 ∧
    consistency_failures [c10m] = 2 ∧
    ∃ r, consistency_success_rate [c10m] = some r ∧ r < 0 := by
  refine ⟨fun ms => by simpa using consistency_checks_add ms 0, ?_, ?_, ?_, ?_⟩
  · have h1 : efficiency_fail_loose c10m := by
      constructor <;> norm_num [c10m, expected_efficiency]
    have h2 : throughput_fail c10m := by
      constructor <;> norm_num [c10m]
    simp [consistency_fail_count, h1, h2]
  · simp [consistency_checks]
  · have h1 : efficiency_fail_loose c10m := by
      constructor <;> norm_num [c10m, expected_efficiency]
    have h2 : throughput_fail c10m := by
      constructor <;> norm_num [c10m]
    simp [consistency_failures, consistency_fail_count, h1, h2]
  · refine ⟨-100, ?_, by norm_num⟩
    have h1 : efficiency_fail_loose c10m := by
      constructor <;> norm_num [c10m, expected_efficiency]
    have h2 : throughput_fail c10m := by
      constructor <;> norm_num [c10m]
    simp only [consistency_success_rate, consistency_checks,
      consistency_failures, consistency_fail_count, List.foldl_cons,
      List.foldl_nil, h1, h2, if_true]
    norm_num

/-- Range predicate for latency, `0.1 <= latency_ms <= 1000`
(extract_real_data_only.py line 270). -/
def latency_in_range (m : Measurement) : Prop :=
  0.1 ≤ m.latency_ms ∧ m.latency_ms ≤ 1000

/-- Range predicate for throughput, `1 <= throughput_fps <= 10000`
(line 279). -/
def throughput_in_range (m : Measurement) : Prop :=
  1 ≤ m.throughput_fps ∧ m.throughput_fps ≤ 10000

/-- Combined range predicate for power and temperature, lines 292-293:
`10 <= power <= 100` and `20 <= temperature <= 100`. -/
def power_temp_in_range (m : Measurement) : Prop :=
  10 ≤ m.power_watts ∧ m.power_watts ≤ 100 ∧
    20 ≤ m.temperature_celsius ∧ m.temperature_celsius ≤ 100

instance (m : Measurement) : Decidable (latency_in_range m) := by
  unfold latency_in_range; infer_instance

instance (m : Measurement) : Decidable (throughput_in_range m) := by
  unfold throughput_in_range; infer_instance

instance (m : Measurement) : Decidable (power_temp_in_range m) := by
  unfold power_temp_in_range; infer_instance

/-- The three pass counters of
`RealDataExtractor.validate_measurements`. -/
structure ValidationCounts where
  mathematical_consistency : Nat
  physical_validity : Nat
  range_validation : Nat
deriving DecidableEq, Repr

/-- One entry of the `failed_validations` list.  The source only ever
appends entries of these three kinds; an out-of-range power or
temperature produces no entry at all. -/
inductive FailedValidation
  | mathematical_consistency (index : Nat) (expected actual difference : Rat)
  | invalid_latency (index : Nat) (value : Rat)
  | invalid_throughput (index : Nat) (value : Rat)
deriving DecidableEq, Repr

/-- Failure entries the loop body of `validate_measurements` appends for
the row at index `idx` (lines 249-285). -/
def row_failures (idx : Nat) (m : Measurement) : List FailedValidation :=
  (if efficiency_check_strict m then []
   else
     [FailedValidation.mathematical_consistency idx (expected_efficiency m)
        m.efficiency_fps_per_watt
        |expected_efficiency m - m.efficiency_fps_per_watt|]) ++
  (if latency_in_range m then []
   else [FailedValidation.invalid_latency idx m.latency_ms]) ++
  (if throughput_in_range m then []
   else [FailedValidation.invalid_throughput idx m.throughput_fps])

/-- Counter accumulation of `validate_measurements` (lines 245-295):
the mathematical-consistency counter counts rows passing the strict
efficiency check, the physical-validity counter counts rows with both
latency and throughput in range, and the range-validation counter counts
rows with power and temperature in range. -/
def validate_counts (ms : List Measurement) : ValidationCounts :=
  ms.foldl
    (fun acc m =>
      ⟨acc.mathematical_consistency +
          (if efficiency_check_strict m then 1 else 0),
        acc.physical_validity +
          (if latency_in_range m ∧ throughput_in_range m then 1 else 0),
        acc.range_validation + (if power_temp_in_range m then 1 else 0)⟩)
    ⟨0, 0, 0⟩

/-- Accumulated `failed_validations` list of `validate_measurements`,
rows enumerated in order. -/
def validate_failures (ms : List Measurement) : List FailedValidation :=
  ms.enum.foldl (fun acc p => acc ++ row_failures p.1 p.2) []

/-- Validation percentages block of `validate_measurements` (lines
297-303): three divisions by `total_measurements`.  Modelled fallibly:
Python raises `ZeroDivisionError` when the count is zero. -/
def validation_percentages (ms : List Measurement) : Option (Rat × Rat × Rat) :=
  if ms.length = 0 then none
  else
    some (((validate_counts ms).mathematical_consistency : Rat) / ms.length * 100,
      ((validate_counts ms).physical_validity : Rat) / ms.length * 100,
      ((validate_counts ms).range_validation : Rat) / ms.length * 100)

theorem validate_failures_add (l : List (Nat × Measurement))
    (acc : List FailedValidation) :
    l.foldl (fun acc p => acc ++ row_failures p.1 p.2) acc =
      acc ++ l.foldl (fun acc p => acc ++ row_failures p.1 p.2) [] := by
  induction l generalizing acc with
  | nil => simp
  | cons p l ih =>
    rw [List.foldl_cons, List.foldl_cons, ih (acc ++ row_failures p.1 p.2),
      ih (List.nil ++ row_failures p.1 p.2)]
    simp [List.append_assoc]

theorem row_failures_sublist (ms : List Measurement) (p : Nat × Measurement)
    (hp : p ∈ ms.enum) (e : FailedValidation)
    (he : e ∈ row_failures p.1 p.2) : e ∈ validate_failures ms := by
  unfold validate_failures
  generalize ms.enum = l at hp ⊢
  induction l with
  | nil => cases hp
  | cons q l ih =>
    rw [List.foldl_cons, validate_failures_add]
    rcases List.mem_cons.mp hp with rfl | hmem
    · exact List.mem_append_left _ (by simpa using he)
    · exact List.mem_append_right _ (ih hmem)

theorem validate_counts_range (ms : List Measurement) (c : ValidationCounts) :
    (ms.foldl
      (fun acc m =>
        ⟨acc.mathematical_consistency +
            (if efficiency_check_strict m then 1 else 0),
          acc.physical_validity +
            (if latency_in_range m ∧ throughput_in_range m then 1 else 0),
          acc.range_validation + (if power_temp_in_range m then 1 else 0)⟩)
      c).range_validation =
      c.range_validation + ms.countP (fun m => decide (power_temp_in_range m)) := by
  induction ms generalizing c with
  | nil => simp
  | cons m ms ih =>
    rw [List.foldl_cons, ih]
    by_cases h : power_temp_in_range m <;>
      simp [List.countP_cons, h, Nat.add_assoc, Nat.add_comm 1]

/-- Measurement used for C7: its power (5 W) is outside the range
[10, 100] while every other check passes (efficiency 10/5 = 2 exactly,
latency 100 ms, throughput 10 fps, temperature 50 C). -/
def c7m : Measurement :=
  ⟨"m", 1, 1, 100, 10, 5, 2, 50⟩

/-- Counterexample to C7: a record with out-of-range power produces an
empty failure list; only the range-validation counter withholds its
increment, so not every out-of-range value is recorded as a failure. -/
theorem c7_power_out_of_range_not_recorded :
    ¬ power_temp_in_range c7m ∧
    validate_failures [c7m] = [] ∧
    validate_counts [c7m] = ⟨1, 1, 0⟩ := by
  have hpt : ¬ power_temp_in_range c7m := by
    intro h
    have := h.1
    norm_num [c7m] at this
  have heff : efficiency_check_strict c7m := by
    norm_num [efficiency_check_strict, expected_efficiency, c7m]
  have hlat : latency_in_range c7m := by constructor <;> norm_num [c7m]
  have htp : throughput_in_range c7m := by constructor <;> norm_num [c7m]
  refine ⟨hpt, ?_, ?_⟩
  · simp [validate_failures, List.enum, row_failures, heff, hlat, htp]
  · simp [validate_counts, heff, hlat, htp, hpt]

/-- C7 as amended: latency and throughput range violations are recorded
in the failure list, the range-validation counter counts exactly the
rows with power and temperature in range (an out-of-range power or
temperature adds no failure entry), and processing always covers every
record. -/
theorem c7_amended_range_checks (ms : List Measurement) :
    (validate_counts ms).range_validation =
      ms.countP (fun m => decide (power_temp_in_range m)) ∧
    ∀ p ∈ ms.enum,
      (¬ latency_in_range p.2 →
        FailedValidation.invalid_latency p.1 p.2.latency_ms ∈
          validate_failures ms) ∧
      (¬ throughput_in_range p.2 →
        FailedValidation.invalid_throughput p.1 p.2.throughput_fps ∈
          validate_failures ms) := by
  constructor
  · simpa using validate_counts_range ms ⟨0, 0, 0⟩
  · intro p hp
    constructor
    · intro hlat
      refine row_failures_sublist ms p hp _ ?_
      simp [row_failures, hlat]
    · intro htp
      refine row_failures_sublist ms p hp _ ?_
      simp [row_failures, htp]

/-- Measurement used for the C7 witness: latency 5000 ms is out of
range. -/
def c7w : Measurement :=
  ⟨"m", 1, 1, 5000, 10, 50, 0.2, 50⟩

/-- Witness for the amended C7 at a record with out-of-range latency. -/
theorem c7_amended_range_checks_witness :
    (0, c7w) ∈ ([c7w] : List Measurement).enum ∧
    ¬ latency_in_range c7w ∧
    FailedValidation.invalid_latency 0 c7w.latency_ms ∈
      validate_failures [c7w] := by
  have hmem : ((0, c7w) : Nat × Measurement) ∈ ([c7w] : List Measurement).enum := by
    simp [List.enum]
  have hlat : ¬ latency_in_range c7w := by
    intro h
    have := h.2
    norm_num [c7w] at this
  exact ⟨hmem, hlat,
    ((c7_amended_range_checks [c7w]).2 (0, c7w) hmem).1 hlat⟩

/-- Coefficient of variation (extract_real_data_only.py line 151):
`std / mean` when the mean is nonzero, otherwise 0. -/
def coefficient_of_variation (sample_std sample_mean : Rat) : Rat :=
  if sample_mean ≠ 0 then sample_std / sample_mean else 0

/-- Counterexample to C8: on a dataset with zero valid records, both the
consistency success rate (validate_calculations.py line 95) and the
validation percentages (extract_real_data_only.py lines 297-303) divide
by a zero count; the division error is the `none` result. -/
theorem c8_zero_records_zero_division :
    consistency_success_rate [] = none ∧ validation_percentages [] = none := by
  constructor
  · simp [consistency_success_rate, consistency_checks]
  · simp [validation_percentages]

/-- C8 as amended: the coefficient of variation and the expected
efficiency are guarded against zero denominators, but the success-rate
and percentage divisions are not guarded: they fail exactly when the
dataset has zero records. -/
theorem c8_amended_guarded_divisions (ms : List Measurement) :
    (consistency_success_rate ms = none ↔ ms = []) ∧
    (validation_percentages ms = none ↔ ms = []) ∧
    (∀ sample_std : Rat, coefficient_of_variation sample_std 0 = 0) ∧
    (∀ m : Measurement, m.power_watts = 0 → expected_efficiency m = 0) := by
  refine ⟨?_, ?_, ?_, ?_⟩
  · have hc : consistency_checks ms = ms.length := by
      simpa using consistency_checks_add ms 0
    simp [consistency_success_rate, hc, List.length_eq_zero]
  · simp [validation_percentages, List.length_eq_zero]
  · intro s; simp [coefficient_of_variation]
  · intro m hm
    simp [expected_efficiency, hm]

/-- Witness for the amended C8, applied to the empty dataset and to a
zero-power measurement. -/
theorem c8_amended_guarded_divisions_witness :
    consistency_success_rate ([] : List Measurement) = none ∧
    expected_efficiency ⟨"m", 1, 1, 1, 5, 0, 0, 50⟩ = 0 :=
  ⟨(c8_amended_guarded_divisions []).1.mpr rfl,
    (c8_amended_guarded_divisions []).2.2.2 ⟨"m", 1, 1, 1, 5, 0, 0, 50⟩ rfl⟩

/-- Insert a value into an association list of groups, with Python dict
semantics: the first occurrence of a key fixes its position, later
values are appended to the key's list. -/
def groupInsert {α β : Type} [DecidableEq α] (k : α) (v : β) :
    List (α × List β) → List (α × List β)
  | [] => [(k, [v])]
  | (a, vs) :: rest =>
    if a = k then (a, vs ++ [v]) :: rest else (a, vs) :: groupInsert k v rest

/-- Group a list by a key function, preserving insertion order (the
`config_groups[key].append(m)` pattern used by both peak finding and
scaling analysis). -/
def groupByKey {α β : Type} [DecidableEq α] (key : β → α) (xs : List β) :
    List (α × List β) :=
  xs.foldl (fun acc x => groupInsert (key x) x acc) []

/-- Association-list lookup with decidable equality (Python dict
access). -/
def alookup {α β : Type} [DecidableEq α] (k : α) : List (α × β) → Option β
  | [] => none
  | (a, b) :: rest => if a = k then some b else alookup k rest

theorem mem_keys_groupInsert {α β : Type} [DecidableEq α] (k a : α) (v : β)
    (l : List (α × List β)) (h : a ∈ (groupInsert k v l).map Prod.fst) :
    a ∈ l.map Prod.fst ∨ a = k := by
  induction l with
  | nil => simpa [groupInsert] using h
  | cons p l ih =>
    obtain ⟨b, vs⟩ := p
    by_cases hbk : b = k
    · subst hbk
      simp only [groupInsert, if_pos rfl, List.map_cons] at h
      exact Or.inl h
    · simp only [groupInsert, hbk, if_false, List.map_cons, List.mem_cons] at h ⊢
      rcases h with rfl | h
      · exact Or.inl (Or.inl rfl)
      · rcases ih h with h | h
        · exact Or.inl (Or.inr h)
        · exact Or.inr h

theorem keys_nodup_groupInsert {α β : Type} [DecidableEq α] (k : α) (v : β)
    (l : List (α × List β)) (h : (l.map Prod.fst).Nodup) :
    ((groupInsert k v l).map Prod.fst).Nodup := by
  induction l with
  | nil => simp [groupInsert]
  | cons p l ih =>
    obtain ⟨b, vs⟩ := p
    simp only [List.map_cons, List.nodup_cons] at h
    by_cases hbk : b = k
    · simpa [groupInsert, hbk, List.nodup_cons] using h
    · simp only [groupInsert, hbk, if_false, List.map_cons, List.nodup_cons]
      refine ⟨fun hmem => ?_, ih h.2⟩
      rcases mem_keys_groupInsert k b v l hmem with hb | rfl
      · exact h.1 hb
      · exact hbk rfl

theorem keys_nodup_groupByKey {α β : Type} [DecidableEq α] (key : β → α)
    (xs : List β) : ((groupByKey key xs).map Prod.fst).Nodup := by
  suffices h : ∀ acc : List (α × List β), (acc.map Prod.fst).Nodup →
      ((xs.foldl (fun acc x => groupInsert (key x) x acc) acc).map
        Prod.fst).Nodup by
    exact h [] (by simp)
  induction xs with
  | nil => intro acc hacc; simpa using hacc
  | cons x xs ih =>
    intro acc hacc
    exact ih _ (keys_nodup_groupInsert (key x) x acc hacc)

theorem alookup_eq_none_of_not_mem_keys {α β : Type} [DecidableEq α]
    (k : α) (l : List (α × β)) (h : k ∉ l.map Prod.fst) :
    alookup k l = none := by
  induction l with
  | nil => rfl
  | cons p l ih =>
    obtain ⟨a, b⟩ := p
    simp only [List.map_cons, List.mem_cons, not_or] at h
    have hak : ¬ a = k := fun hak => h.1 hak.symm
    simp [alookup, hak, ih h.2]

theorem alookup_map_val {α β γ : Type} [DecidableEq α] (k : α)
    (g : α → β → γ) (l : List (α × β)) :
    alookup k (l.map fun p => (p.1, g p.1 p.2)) = (alookup k l).map (g k) := by
  induction l with
  | nil => rfl
  | cons p l ih =>
    obtain ⟨a, b⟩ := p
    by_cases hak : a = k
    · subst hak; simp [alookup]
    · simp [alookup, hak, ih]

theorem keys_filterMap_keyed {α β γ : Type} (g : α → β → Option γ)
    (l : List (α × β)) (a : α)
    (h : a ∈ (l.filterMap fun p => (g p.1 p.2).map fun c => (p.1, c)).map
      Prod.fst) : a ∈ l.map Prod.fst := by
  induction l with
  | nil => simpa using h
  | cons p l ih =>
    simp only [List.filterMap_cons] at h
    cases hg : (g p.1 p.2).map fun c => (p.1, c) with
    | none => simp only [hg] at h; exact List.mem_cons_of_mem _ (ih h)
    | some q =>
      simp only [hg, List.map_cons, List.mem_cons] at h
      rcases h with rfl | h
      · obtain ⟨c, _, rfl⟩ := Option.map_eq_some'.mp hg
        exact List.mem_cons_self _ _
      · exact List.mem_cons_of_mem _ (ih h)

theorem alookup_filterMap_keyed {α β γ : Type} [DecidableEq α] (k : α)
    (g : α → β → Option γ) (l : List (α × β))
    (hnd : (l.map Prod.fst).Nodup) :
    alookup k (l.filterMap fun p => (g p.1 p.2).map fun c => (p.1, c)) =
      (alookup k l).bind (g k) := by
  induction l with
  | nil => rfl
  | cons p l ih =>
    obtain ⟨a, b⟩ := p
    simp only [List.map_cons, List.nodup_cons] at hnd
    by_cases hak : a = k
    · subst hak
      cases hg : g a b with
      | none =>
        have hrest : alookup a
            (l.filterMap fun p => (g p.1 p.2).map fun c => (p.1, c)) = none :=
          alookup_eq_none_of_not_mem_keys a _
            fun hmem => hnd.1 (keys_filterMap_keyed g l a hmem)
        simp [List.filterMap_cons, hg, alookup, hrest]
      | some c =>
        simp [List.filterMap_cons, hg, alookup]
    · cases hg : g a b with
      | none => simpa [List.filterMap_cons, hg, alookup, hak] using ih hnd.2
      | some c => simpa [List.filterMap_cons, hg, alookup, hak] using ih hnd.2

/-- Average throughput of a list of measurements (`np.mean` of the
throughput column). -/
def avg_throughput (ms : List Measurement) : Rat :=
  mean (ms.map (·.throughput_fps))

/-- Average power of a list of measurements. -/
def avg_power (ms : List Measurement) : Rat :=
  mean (ms.map (·.power_watts))

/-- Average efficiency of a list of measurements. -/
def avg_efficiency (ms : List Measurement) : Rat :=
  mean (ms.map (·.efficiency_fps_per_watt))

/-- Per-core-count averages of `analyze_scaling_performance`
(validate_calculations.py lines 343-354). -/
structure CorePerformance where
  avg_throughput : Rat
  avg_power : Rat
  avg_efficiency : Rat
  measurement_count : Nat
deriving DecidableEq, Repr

/-- Scaling metrics entry of `analyze_scaling_performance` (lines
362-370): scaling factor relative to the 1-core baseline, scaling
efficiency (scaling factor over cores) stored as a percentage, and
throughput improvement `(scaling_factor - 1) * 100`. -/
structure ScalingMetrics where
  scaling_factor : Rat
  scaling_efficiency_percent : Rat
  throughput_improvement : Rat
deriving DecidableEq, Repr

/-- Lines 343-354: average performance for each core count. -/
def core_performance (coreData : List (Nat × List Measurement)) :
    List (Nat × CorePerformance) :=
  coreData.map fun p =>
    (p.1, ⟨avg_throughput p.2, avg_power p.2, avg_efficiency p.2, p.2.length⟩)

/-- Lines 361-370: the metrics computed for one core count when
`cores > 1`, relative to the 1-core baseline. -/
def scaling_metric_for (baseline : CorePerformance) (cores : Nat)
    (perf : CorePerformance) : Option ScalingMetrics :=
  if 1 < cores then
    some ⟨perf.avg_throughput / baseline.avg_throughput,
      perf.avg_throughput / baseline.avg_throughput / (cores : Rat) * 100,
      (perf.avg_throughput / baseline.avg_throughput - 1) * 100⟩
  else none

/-- Lines 338-375, the body for one (model, batch) combination: skip
when fewer than two distinct core counts are present, then skip when the
1-core baseline is absent, otherwise report the per-core averages and
the scaling metrics for every core count above 1. -/
def scaling_group_result (sub : List Measurement) :
    Option (List (Nat × CorePerformance) × List (Nat × ScalingMetrics)) :=
  if (groupByKey (fun m : Measurement => m.cores) sub).length < 2 then none
  else
    match alookup 1 (core_performance
      (groupByKey (fun m : Measurement => m.cores) sub)) with
    | none => none
    | some baseline =>
      some (core_performance (groupByKey (fun m : Measurement => m.cores) sub),
        (core_performance
          (groupByKey (fun m : Measurement => m.cores) sub)).filterMap
          fun p => (scaling_metric_for baseline p.1 p.2).map fun sm => (p.1, sm))

/-- Embedding of `analyze_scaling_performance`
(validate_calculations.py lines 312-394): group by (model, batch_size),
then analyze core scaling per combination. -/
def analyze_scaling_performance (ms : List Measurement) :
    List ((String × Nat) ×
      (List (Nat × CorePerformance) × List (Nat × ScalingMetrics))) :=
  (groupByKey (fun m => (m.model, m.batch_size)) ms).filterMap
    fun p => (scaling_group_result p.2).map fun r => (p.1, r)

theorem keys_core_performance (coreData : List (Nat × List Measurement)) :
    (core_performance coreData).map Prod.fst = coreData.map Prod.fst := by
  simp [core_performance, List.map_map]

theorem alookup_core_performance (k : Nat)
    (coreData : List (Nat × List Measurement)) :
    alookup k (core_performance coreData) =
      (alookup k coreData).map fun l =>
        (⟨avg_throughput l, avg_power l, avg_efficiency l, l.length⟩ :
          CorePerformance) := by
  induction coreData with
  | nil => rfl
  | cons p l ih =>
    obtain ⟨a, b⟩ := p
    by_cases hak : a = k
    · subst hak; simp [core_performance, alookup]
    · simpa [core_performance, alookup, hak] using ih

theorem alookup_analyze_scaling (ms : List Measurement) (k : String × Nat) :
    alookup k (analyze_scaling_performance ms) =
      (alookup k (groupByKey (fun m => (m.model, m.batch_size)) ms)).bind
        scaling_group_result := by
  exact alookup_filterMap_keyed k (fun _ sub => scaling_group_result sub) _
    (keys_nodup_groupByKey _ _)

/-- C3: for every (model, batch) group with a 1-core baseline and at
least two distinct core counts, and every core count `c > 1` present in
the group, the analyzer reports
`scaling_factor = avg_throughput(c) / avg_throughput(1)`, a scaling
efficiency of `scaling_factor / c` (stored as a percentage), and a
throughput improvement of `(scaling_factor - 1) * 100`. -/
theorem c3_scaling_metrics (ms : List Measurement) (k : String × Nat)
    (sub base lst : List Measurement) (c : Nat)
    (hsub : alookup k (groupByKey (fun m => (m.model, m.batch_size)) ms) =
      some sub)
    (hlen : 2 ≤ (groupByKey (fun m : Measurement => m.cores) sub).length)
    (hbase : alookup 1 (groupByKey (fun m : Measurement => m.cores) sub) =
      some base)
    (hlst : alookup c (groupByKey (fun m : Measurement => m.cores) sub) =
      some lst)
    (hc : 1 < c) :
    ∃ cp sm, alookup k (analyze_scaling_performance ms) = some (cp, sm) ∧
      alookup c sm = some
        ⟨avg_throughput lst / avg_throughput base,
         avg_throughput lst / avg_throughput base / (c : Rat) * 100,
         (avg_throughput lst / avg_throughput base - 1) * 100⟩ := by
  have hnd : ((groupByKey (fun m : Measurement => m.cores) sub).map
      Prod.fst).Nodup := keys_nodup_groupByKey _ _
  have hcp1 : alookup 1 (core_performance
      (groupByKey (fun m : Measurement => m.cores) sub)) =
      some ⟨avg_throughput base, avg_power base, avg_efficiency base,
        base.length⟩ := by
    rw [alookup_core_performance, hbase]; rfl
  have hcpc : alookup c (core_performance
      (groupByKey (fun m : Measurement => m.cores) sub)) =
      some ⟨avg_throughput lst, avg_power lst, avg_efficiency lst,
        lst.length⟩ := by
    rw [alookup_core_performance, hlst]; rfl
  have hgroup : scaling_group_result sub =
      some (core_performance (groupByKey (fun m : Measurement => m.cores) sub),
        (core_performance
          (groupByKey (fun m : Measurement => m.cores) sub)).filterMap
          fun p => (scaling_metric_for
            ⟨avg_throughput base, avg_power base, avg_efficiency base,
              base.length⟩ p.1 p.2).map fun sm => (p.1, sm)) := by
    unfold scaling_group_result
    rw [if_neg (by omega), hcp1]

  refine ⟨core_performance (groupByKey (fun m : Measurement => m.cores) sub),
    (core_performance
      (groupByKey (fun m : Measurement => m.cores) sub)).filterMap
      (fun p => (scaling_metric_for
        ⟨avg_throughput base, avg_power base, avg_efficiency base,
          base.length⟩ p.1 p.2).map fun sm => (p.1, sm)), ?_, ?_⟩
  · rw [alookup_analyze_scaling, hsub, Option.some_bind, hgroup]
  · have hndcp : ((core_performance
        (groupByKey (fun m : Measurement => m.cores) sub)).map
        Prod.fst).Nodup := by
      rw [keys_core_performance]; exact hnd
    rw [alookup_filterMap_keyed c _ _ hndcp, hcpc, Option.some_bind,
      scaling_metric_for, if_pos hc]

/-- Concrete dataset for the C3 witness: one 1-core measurement
averaging 100 fps and one 4-core measurement averaging 350 fps, same
model and batch size. -/
def c3a : Measurement := ⟨"m", 1, 1, 10, 100, 20, 5, 40⟩

/-- The 4-core companion measurement of the C3 witness dataset. -/
def c3b : Measurement := ⟨"m", 4, 1, 10, 350, 20, 5, 40⟩

/-- Witness for C3 at the spec's example: 1-core average 100 fps and
4-core average 350 fps yield scaling factor 3.5, scaling efficiency
0.875 (87.5%), and throughput improvement 250%. -/
theorem c3_scaling_metrics_witness :
    (∃ cp sm,
      alookup ("m", 1) (analyze_scaling_performance [c3a, c3b]) =
        some (cp, sm) ∧
      alookup 4 sm = some
        ⟨avg_throughput [c3b] / avg_throughput [c3a],
         avg_throughput [c3b] / avg_throughput [c3a] / (4 : Rat) * 100,
         (avg_throughput [c3b] / avg_throughput [c3a] - 1) * 100⟩) ∧
    avg_throughput [c3a] = 100 ∧ avg_throughput [c3b] = 350 ∧
    avg_throughput [c3b] / avg_throughput [c3a] = 3.5 ∧
    avg_throughput [c3b] / avg_throughput [c3a] / (4 : Rat) = 0.875 ∧
    avg_throughput [c3b] / avg_throughput [c3a] / (4 : Rat) * 100 = 87.5 ∧
    (avg_throughput [c3b] / avg_throughput [c3a] - 1) * 100 = 250 := by
  have h100 : avg_throughput [c3a] = 100 := by
    norm_num [avg_throughput, mean, c3a]
  have h350 : avg_throughput [c3b] = 350 := by
    norm_num [avg_throughput, mean, c3b]
  refine ⟨?_, h100, h350, ?_, ?_, ?_, ?_⟩
  · exact c3_scaling_metrics [c3a, c3b] ("m", 1) [c3a, c3b] [c3a] [c3b] 4
      rfl (by decide) rfl rfl (by decide)
  all_goals rw [h100, h350]; norm_num

/-- Entry of `scaling_data` in
`RealDataExtractor._analyze_multicore_scaling` (extract lines 210-215). -/
structure MulticoreEntry where
  throughput_fps : Rat
  scaling_factor : Rat
  efficiency : Rat
  sample_count : Nat
deriving DecidableEq, Repr

/-- The scaling-factor expression of `_analyze_multicore_scaling` line
207: `mean / baseline if baseline_throughput else 0`.  Python truthiness
treats both a missing and a zero baseline as falsy. -/
def scaling_factor_guarded (baseline : Option Rat) (mean_throughput : Rat) :
    Rat :=
  match baseline with
  | some b => if b ≠ 0 then mean_throughput / b else 0
  | none => 0

/-- Loop body of `_analyze_multicore_scaling` (extract lines 196-215),
threading the accumulated entries and the baseline throughput. -/
def multicore_step (rb : List Measurement)
    (st : List (Nat × MulticoreEntry) × Option Rat) (cores : Nat) :
    List (Nat × MulticoreEntry) × Option Rat :=
  let core_data := rb.filter fun m => decide (m.cores = cores)
  if 0 < core_data.length then
    if cores = 1 then
      (st.1 ++ [(1, ⟨mean (core_data.map (·.throughput_fps)), 1, 1,
        core_data.length⟩)],
       some (mean (core_data.map (·.throughput_fps))))
    else
      (st.1 ++ [(cores,
        ⟨mean (core_data.map (·.throughput_fps)),
         scaling_factor_guarded st.2 (mean (core_data.map (·.throughput_fps))),
         scaling_factor_guarded st.2 (mean (core_data.map (·.throughput_fps))) /
           (cores : Rat),
         core_data.length⟩)], st.2)
  else st

/-- Embedding of `RealDataExtractor._analyze_multicore_scaling` (extract
lines 184-227): filter the ResNet-18 batch-1 rows, then iterate over
core counts 1, 2, 4, emitting one entry per nonempty core count. -/
def analyze_multicore_scaling (df : List Measurement) :
    List (Nat × MulticoreEntry) :=
  (([1, 2, 4] : List Nat).foldl
    (multicore_step (df.filter fun m =>
      decide (m.model = "resnet18-imagenet" ∧ m.batch_size = 1)))
    ([], none)).1

/-- Dataset for the C5 counterexample: a single ResNet-18 batch-1
measurement at 2 cores, with no 1-core baseline and only one distinct
core count. -/
def c5df : List Measurement :=
  [⟨"resnet18-imagenet", 2, 1, 10, 100, 20, 5, 40⟩]

/-- Counterexample to C5: the extraction-script scaling analyzer, on a
group with no 1-core baseline and a single distinct core count, still
produces a scaling entry (with scaling factor 0) instead of skipping the
group. -/
theorem c5_extract_path_emits_entry :
    analyze_multicore_scaling c5df = [(2, ⟨100, 0, 0, 1⟩)] ∧
    analyze_multicore_scaling c5df ≠ [] := by
  have h : analyze_multicore_scaling c5df = [(2, ⟨100, 0, 0, 1⟩)] := by
    have h2 : mean [(100 : Rat)] = 100 := by norm_num [mean]
    simp only [analyze_multicore_scaling, c5df, List.foldl_cons,
      List.foldl_nil, multicore_step, List.filter, scaling_factor_guarded]
    norm_num [h2]
  exact ⟨h, by rw [h]; simp⟩

/-- C5 as amended: the validation-script scaling analyzer skips any
(model, batch) group whose 1-core sub-group is absent or that has fewer
than two distinct core counts, producing no entry and no error; the
extraction-script analyzer instead emits entries with scaling factor 0
for core counts above 1 when the baseline is absent. -/
theorem c5_amended_scaling_skips :
    (∀ (ms : List Measurement) (k : String × Nat) (sub : List Measurement),
      alookup k (groupByKey (fun m => (m.model, m.batch_size)) ms) =
        some sub →
      (alookup 1 (groupByKey (fun m : Measurement => m.cores) sub) = none ∨
        (groupByKey (fun m : Measurement => m.cores) sub).length < 2) →
      alookup k (analyze_scaling_performance ms) = none) ∧
    analyze_multicore_scaling c5df = [(2, ⟨100, 0, 0, 1⟩)] := by
  constructor
  · intro ms k sub hsub h
    rw [alookup_analyze_scaling, hsub, Option.some_bind]
    unfold scaling_group_result
    rcases h with hnone | hlen
    · by_cases hl : (groupByKey (fun m : Measurement => m.cores) sub).length < 2
      · rw [if_pos hl]
      · rw [if_neg hl, alookup_core_performance, hnone]; rfl
    · rw [if_pos hlen]
  · exact c5_extract_path_emits_entry.1

/-- Dataset for the C5 witness: one (model, batch) group with a single
2-core measurement in the validation-script analyzer. -/
def c5w : Measurement := ⟨"m", 2, 1, 10, 100, 20, 5, 40⟩

/-- Witness for the amended C5: a group with only a 2-core sub-group is
skipped by the validation-script analyzer. -/
theorem c5_amended_scaling_skips_witness :
    alookup ("m", 1) (groupByKey
      (fun m : Measurement => (m.model, m.batch_size)) [c5w]) = some [c5w] ∧
    alookup 1 (groupByKey (fun m : Measurement => m.cores) [c5w]) = none ∧
    alookup ("m", 1) (analyze_scaling_performance [c5w]) = none :=
  ⟨rfl, rfl,
    c5_amended_scaling_skips.1 [c5w] ("m", 1) [c5w] rfl (Or.inl rfl)⟩

/-- Metric column selection of `calculate_real_statistics` (extract
lines 124-128).  Fields are total in this model, so pandas `dropna` is
the identity and each column has one entry per measurement. -/
def metric_column (ms : List Measurement) (name : String) : List Rat :=
  if name = "latency_ms" then ms.map (·.latency_ms)
  else if name = "throughput_fps" then ms.map (·.throughput_fps)
  else if name = "power_watts" then ms.map (·.power_watts)
  else if name = "efficiency_fps_per_watt" then
    ms.map (·.efficiency_fps_per_watt)
  else if name = "temperature_celsius" then ms.map (·.temperature_celsius)
  else []

/-- The metric list of `calculate_real_statistics` line 124. -/
def extract_metrics : List String :=
  ["latency_ms", "throughput_fps", "power_watts", "efficiency_fps_per_watt",
   "temperature_celsius"]

/-- The metrics for which `calculate_real_statistics` emits a
`confidence_interval_95` entry: exactly those with more than one sample
(extract lines 127-152); every metric in the list gets one, including
temperature. -/
def extract_ci_metrics (ms : List Measurement) : List String :=
  extract_metrics.filter fun name => 1 < (metric_column ms name).length

/-- The metric keys of `stats_results` in `reproduce_summary_statistics`
(validate_calculations.py lines 122-162), in insertion order. -/
def validate_stats_metrics : List String :=
  ["power_consumption_watts", "throughput_fps", "efficiency_fps_per_watt",
   "temperature_celsius"]

/-- The metrics for which the confidence-interval loop of
`reproduce_summary_statistics` (lines 164-187) computes an interval:
temperature is skipped by the `continue`. -/
def validate_ci_metrics : List String :=
  validate_stats_metrics.filter fun name => name ≠ "temperature_celsius"

/-- Dataset for C6: two measurements, so every metric series has more
than one sample. -/
def c6rows : List Measurement :=
  [⟨"m", 1, 1, 10, 100, 20, 5, 40⟩, ⟨"m", 1, 1, 12, 90, 21, 4, 42⟩]

/-- Counterexample to C6: the extraction script computes a confidence
interval for temperature (and latency) whenever the series has at least
two samples. -/
theorem c6_temperature_gets_ci :
    "temperature_celsius" ∈ extract_ci_metrics c6rows ∧
    "latency_ms" ∈ extract_ci_metrics c6rows := by
  constructor <;> decide

/-- C6 as amended: the validation script computes confidence intervals
exactly for power, throughput, and efficiency, skipping temperature; the
extraction script computes them for all five metrics with at least two
samples, temperature and latency included. -/
theorem c6_amended_ci_metrics (ms : List Measurement)
    (h : 2 ≤ ms.length) :
    extract_ci_metrics ms = extract_metrics ∧
    validate_ci_metrics =
      ["power_consumption_watts", "throughput_fps",
       "efficiency_fps_per_watt"] := by
  constructor
  · have h1 : 1 < ms.length := h
    simp only [extract_ci_metrics, extract_metrics, metric_column]
    simp [List.filter, h1]
  · decide

/-- Witness for the amended C6 at the two-sample dataset. -/
theorem c6_amended_ci_metrics_witness :
    2 ≤ c6rows.length ∧
    extract_ci_metrics c6rows = extract_metrics :=
  ⟨by decide, (c6_amended_ci_metrics c6rows (by decide)).1⟩

/-- Maximum of a nonempty list of rationals (`np.max`); 0 on the empty
list, which the source never reaches because groups are nonempty. -/
def listMax : List Rat → Rat
  | [] => 0
  | x :: xs => xs.foldl max x

theorem le_foldl_max (xs : List Rat) (a : Rat) : a ≤ xs.foldl max a := by
  induction xs generalizing a with
  | nil => exact le_refl a
  | cons x xs ih => exact le_trans (le_max_left a x) (ih (max a x))

theorem mem_le_foldl_max (xs : List Rat) (a x : Rat) (hx : x ∈ xs) :
    x ≤ xs.foldl max a := by
  induction xs generalizing a with
  | nil => cases hx
  | cons y ys ih =>
    rcases List.mem_cons.mp hx with rfl | hmem
    · exact le_trans (le_max_right a x) (le_foldl_max ys (max a x))
    · exact ih (max a y) hmem

theorem foldl_max_mem (xs : List Rat) (a : Rat) :
    xs.foldl max a = a ∨ xs.foldl max a ∈ xs := by
  induction xs generalizing a with
  | nil => exact Or.inl rfl
  | cons x xs ih =>
    rcases ih (max a x) with h | h
    · rcases max_choice a x with hm | hm
      · exact Or.inl (by rw [List.foldl_cons, h, hm])
      · exact Or.inr (by rw [List.foldl_cons, h, hm]; exact List.mem_cons_self x xs)
    · exact Or.inr (List.mem_cons_of_mem x h)

theorem listMax_mem (xs : List Rat) (h : xs ≠ []) : listMax xs ∈ xs := by
  cases xs with
  | nil => exact absurd rfl h
  | cons x xs =>
    rcases foldl_max_mem xs x with hm | hm
    · rw [listMax, hm]; exact List.mem_cons_self x xs
    · exact List.mem_cons_of_mem x hm

theorem le_listMax (xs : List Rat) (x : Rat) (hx : x ∈ xs) : x ≤ listMax xs := by
  cases xs with
  | nil => cases hx
  | cons y ys =>
    rcases List.mem_cons.mp hx with rfl | hmem
    · exact le_foldl_max ys x
    · exact mem_le_foldl_max ys y x hmem

theorem foldl_max_shift (xs : List Rat) (a b : Rat) :
    xs.foldl max (max a b) = max a (xs.foldl max b) := by
  induction xs generalizing b with
  | nil => rfl
  | cons x xs ih => rw [List.foldl_cons, List.foldl_cons, max_assoc, ih]

theorem listMax_append (xs ys : List Rat) (hx : xs ≠ []) (hy : ys ≠ []) :
    listMax (xs ++ ys) = max (listMax xs) (listMax ys) := by
  cases xs with
  | nil => exact absurd rfl hx
  | cons x xs =>
    cases ys with
    | nil => exact absurd rfl hy
    | cons y ys =>
      show (xs ++ y :: ys).foldl max x = max (xs.foldl max x) (ys.foldl max y)
      rw [List.foldl_append, List.foldl_cons, foldl_max_shift]

theorem listMax_perm (xs ys : List Rat) (h : xs.Perm ys) :
    listMax xs = listMax ys := by
  cases xs with
  | nil => rw [h.nil_eq.symm]
  | cons x xs =>
    have hyne : ys ≠ [] := by
      intro hnil; subst hnil; exact absurd h.eq_nil (by simp)
    refine le_antisymm ?_ ?_
    · exact le_listMax ys _ (h.mem_iff.mp (listMax_mem _ (by simp)))
    · exact le_listMax (x :: xs) _ (h.mem_iff.mpr (listMax_mem ys hyne))

theorem flatten_groupInsert_perm {α β : Type} [DecidableEq α] (k : α) (v : β)
    (l : List (α × List β)) :
    (((groupInsert k v l).map Prod.snd).flatten).Perm
      (((l.map Prod.snd).flatten) ++ [v]) := by
  induction l with
  | nil => simp [groupInsert]
  | cons p l ih =>
    obtain ⟨a, vs⟩ := p
    by_cases hak : a = k
    · subst hak
      simp only [groupInsert, eq_self_iff_true, if_true, List.map_cons,
        List.flatten_cons]
      rw [List.append_assoc, List.append_assoc]
      exact List.perm_append_comm.append_left vs
    · simp only [groupInsert, hak, if_false, List.map_cons, List.flatten_cons,
        List.append_assoc]
      exact ih.append_left vs

theorem flatten_groupByKey_acc_perm {α β : Type} [DecidableEq α]
    (key : β → α) (xs : List β) :
    ∀ acc : List (α × List β),
      (((xs.foldl (fun acc x => groupInsert (key x) x acc) acc).map
        Prod.snd).flatten).Perm ((acc.map Prod.snd).flatten ++ xs) := by
  induction xs with
  | nil => intro acc; simp
  | cons x xs ih =>
    intro acc
    rw [List.foldl_cons]
    refine (ih (groupInsert (key x) x acc)).trans ?_
    have h1 := flatten_groupInsert_perm (key x) x acc
    refine (h1.append_right xs).trans ?_
    rw [List.append_assoc]
    exact List.Perm.refl _

/-- The records reached by iterating the configuration groups, in
iteration order, are a permutation of the input records. -/
theorem flatten_groupByKey_perm {α β : Type} [DecidableEq α]
    (key : β → α) (xs : List β) :
    (((groupByKey key xs).map Prod.snd).flatten).Perm xs := by
  simpa using flatten_groupByKey_acc_perm key xs []

theorem groups_ne_nil_groupInsert {α β : Type} [DecidableEq α] (k : α) (v : β)
    (l : List (α × List β)) (h : ∀ p ∈ l, p.2 ≠ []) :
    ∀ p ∈ groupInsert k v l, p.2 ≠ [] := by
  induction l with
  | nil =>
    intro p hp
    have hp1 : p = (k, [v]) := by simpa [groupInsert] using hp
    rw [hp1]
    simp
  | cons q l ih =>
    obtain ⟨a, vs⟩ := q
    intro p hp
    by_cases hak : a = k
    · simp only [groupInsert, if_pos hak, List.mem_cons] at hp
      rcases hp with hpe | hp
      · rw [hpe]; simp
      · exact h p (List.mem_cons_of_mem _ hp)
    · simp only [groupInsert, hak, if_false, List.mem_cons] at hp
      rcases hp with hpe | hp
      · rw [hpe]; exact h (a, vs) (List.mem_cons_self _ _)
      · exact ih (fun q hq => h q (List.mem_cons_of_mem _ hq)) p hp

theorem groups_ne_nil_groupByKey {α β : Type} [DecidableEq α]
    (key : β → α) (xs : List β) :
    ∀ p ∈ groupByKey key xs, p.2 ≠ [] := by
  suffices h : ∀ acc : List (α × List β), (∀ p ∈ acc, p.2 ≠ []) →
      ∀ p ∈ xs.foldl (fun acc x => groupInsert (key x) x acc) acc, p.2 ≠ [] by
    exact h [] (by simp)
  induction xs with
  | nil => intro acc hacc; simpa using hacc
  | cons x xs ih =>
    intro acc hacc
    exact ih _ (groups_ne_nil_groupInsert (key x) x acc hacc)

theorem mem_of_mem_groupByKey {α β : Type} [DecidableEq α]
    (key : β → α) (xs : List β) (p : α × List β) (hp : p ∈ groupByKey key xs)
    (x : β) (hx : x ∈ p.2) : x ∈ xs := by
  refine (flatten_groupByKey_perm key xs).mem_iff.mp ?_
  exact List.mem_flatten.mpr ⟨p.2, List.mem_map_of_mem Prod.snd hp, hx⟩

/-- The grouping key of `identify_peak_configurations`
(validate_calculations.py line 218), the full configuration string. -/
def config_key (m : Measurement) : String :=
  m.model ++ "_cores" ++ toString m.cores ++ "_batch" ++ toString m.batch_size

/-- The running best-so-far state of `identify_peak_configurations`
(lines 226-231). -/
structure PeakState where
  peak_throughput : Rat
  peak_efficiency : Rat
  peak_throughput_config : Option String
  peak_efficiency_config : Option String
  peak_throughput_measurement : Option Measurement
  peak_efficiency_measurement : Option Measurement
deriving DecidableEq, Repr

/-- Loop body of `identify_peak_configurations` over one configuration
group (lines 235-272): when the group's maximum throughput strictly
exceeds the best so far, record it together with the first measurement
of the group attaining it; independently do the same for efficiency. -/
def peak_step (st : PeakState) (g : String × List Measurement) : PeakState :=
  { peak_throughput :=
      if st.peak_throughput < listMax (g.2.map (·.throughput_fps)) then
        listMax (g.2.map (·.throughput_fps))
      else st.peak_throughput,
    peak_efficiency :=
      if st.peak_efficiency < listMax (g.2.map (·.efficiency_fps_per_watt)) then
        listMax (g.2.map (·.efficiency_fps_per_watt))
      else st.peak_efficiency,
    peak_throughput_config :=
      if st.peak_throughput < listMax (g.2.map (·.throughput_fps)) then
        some g.1
      else st.peak_throughput_config,
    peak_efficiency_config :=
      if st.peak_efficiency < listMax (g.2.map (·.efficiency_fps_per_watt)) then
        some g.1
      else st.peak_efficiency_config,
    peak_throughput_measurement :=
      if st.peak_throughput < listMax (g.2.map (·.throughput_fps)) then
        g.2.find? fun m =>
          decide (m.throughput_fps = listMax (g.2.map (·.throughput_fps)))
      else st.peak_throughput_measurement,
    peak_efficiency_measurement :=
      if st.peak_efficiency < listMax (g.2.map (·.efficiency_fps_per_watt)) then
        g.2.find? fun m =>
          decide (m.efficiency_fps_per_watt =
            listMax (g.2.map (·.efficiency_fps_per_watt)))
      else st.peak_efficiency_measurement }

/-- Embedding of `identify_peak_configurations` (lines 206-310): group
by full configuration, then scan the groups with the running
best-so-far state starting from peaks 0 and no measurements. -/
def identify_peak_configurations (ms : List Measurement) : PeakState :=
  (groupByKey config_key ms).foldl peak_step ⟨0, 0, none, none, none, none⟩

/-- The records in the order the peak scan visits them: configuration
groups in insertion order, each group in input order. -/
def scan_order (ms : List Measurement) : List Measurement :=
  ((groupByKey config_key ms).map Prod.snd).flatten

/-- Invariant of the peak scan for one metric: the best so far is the
maximum of the records visited so far, and the chosen measurement is the
first visited record attaining it. -/
theorem peak_update_eq (val : Measurement → Rat) (flat g : List Measurement)
    (hgne : g ≠ []) (hgpos : ∀ m ∈ g, 0 < val m)
    (hfpos : ∀ m ∈ flat, 0 < val m) :
    ((if listMax (flat.map val) < listMax (g.map val) then
        listMax (g.map val)
      else listMax (flat.map val)) = listMax ((flat ++ g).map val)) ∧
    ((if listMax (flat.map val) < listMax (g.map val) then
        g.find? fun m => decide (val m = listMax (g.map val))
      else flat.find? fun m => decide (val m = listMax (flat.map val))) =
      (flat ++ g).find? fun m =>
        decide (val m = listMax ((flat ++ g).map val))) := by
  have hgm : g.map val ≠ [] := by
    intro hnil; exact hgne (List.map_eq_nil_iff.mp hnil)
  have hmtpos : 0 < listMax (g.map val) := by
    obtain ⟨m, hm, hv⟩ := List.mem_map.mp (listMax_mem (g.map val) hgm)
    exact hv ▸ hgpos m hm
  cases flat with
  | nil =>
    rw [List.nil_append]
    constructor
    · rw [if_pos (by simpa [listMax] using hmtpos)]
    · rw [if_pos (by simpa [listMax] using hmtpos)]
  | cons f fs =>
    have hfm : (f :: fs).map val ≠ [] := by simp
    have hmem : listMax ((f :: fs).map val) ∈ (f :: fs).map val :=
      listMax_mem _ hfm
    rw [List.map_append, listMax_append _ _ hfm hgm]
    by_cases hlt : listMax ((f :: fs).map val) < listMax (g.map val)
    · rw [max_eq_right (le_of_lt hlt), if_pos hlt, if_pos hlt]
      refine ⟨rfl, ?_⟩
      rw [List.find?_append]
      have hnone : (f :: fs).find?
          (fun m => decide (val m = listMax (g.map val))) = none := by
        rw [List.find?_eq_none]
        intro x hx
        simp only [decide_eq_true_eq]
        intro hv
        have hle : val x ≤ listMax ((f :: fs).map val) :=
          le_listMax _ _ (List.mem_map_of_mem val hx)
        rw [hv] at hle
        exact absurd hlt (not_lt.mpr hle)
      rw [hnone]; rfl
    · rw [max_eq_left (not_lt.mp hlt), if_neg hlt, if_neg hlt]
      refine ⟨rfl, ?_⟩
      obtain ⟨x, hx, hv⟩ := List.mem_map.mp hmem
      cases hfind : (f :: fs).find?
          (fun m => decide (val m = listMax ((f :: fs).map val))) with
      | none =>
        exfalso
        have := List.find?_eq_none.mp hfind x hx
        simp [hv] at this
      | some w =>
        rw [List.find?_append, hfind]; rfl

/-- The full-state invariant step: processing one nonempty group of
positive-valued records extends the invariant from the visited prefix to
the prefix plus the group. -/
theorem peak_step_inv (st : PeakState) (flat : List Measurement)
    (g : String × List Measurement) (hgne : g.2 ≠ [])
    (hgpos : ∀ m ∈ g.2,
      0 < m.throughput_fps ∧ 0 < m.efficiency_fps_per_watt)
    (hfpos : ∀ m ∈ flat,
      0 < m.throughput_fps ∧ 0 < m.efficiency_fps_per_watt)
    (h1 : st.peak_throughput = listMax (flat.map (·.throughput_fps)))
    (h2 : st.peak_throughput_measurement = flat.find? fun m =>
      decide (m.throughput_fps = listMax (flat.map (·.throughput_fps))))
    (h3 : st.peak_efficiency = listMax (flat.map (·.efficiency_fps_per_watt)))
    (h4 : st.peak_efficiency_measurement = flat.find? fun m =>
      decide (m.efficiency_fps_per_watt =
        listMax (flat.map (·.efficiency_fps_per_watt)))) :
    (peak_step st g).peak_throughput =
      listMax ((flat ++ g.2).map (·.throughput_fps)) ∧
    (peak_step st g).peak_throughput_measurement =
      (flat ++ g.2).find? (fun m => decide (m.throughput_fps =
        listMax ((flat ++ g.2).map (·.throughput_fps)))) ∧
    (peak_step st g).peak_efficiency =
      listMax ((flat ++ g.2).map (·.efficiency_fps_per_watt)) ∧
    (peak_step st g).peak_efficiency_measurement =
      (flat ++ g.2).find? (fun m => decide (m.efficiency_fps_per_watt =
        listMax ((flat ++ g.2).map (·.efficiency_fps_per_watt)))) := by
  have htp := peak_update_eq (fun m => m.throughput_fps) flat g.2 hgne
    (fun m hm => (hgpos m hm).1) (fun m hm => (hfpos m hm).1)
  have heff := peak_update_eq (fun m => m.efficiency_fps_per_watt) flat g.2
    hgne (fun m hm => (hgpos m hm).2) (fun m hm => (hfpos m hm).2)
  refine ⟨?_, ?_, ?_, ?_⟩
  · show (if st.peak_throughput < listMax (g.2.map (·.throughput_fps)) then
        listMax (g.2.map (·.throughput_fps))
      else st.peak_throughput) = _
    rw [h1]; exact htp.1
  · show (if st.peak_throughput < listMax (g.2.map (·.throughput_fps)) then
        g.2.find? fun m =>
          decide (m.throughput_fps = listMax (g.2.map (·.throughput_fps)))
      else st.peak_throughput_measurement) = _
    rw [h1, h2]; exact htp.2
  · show (if st.peak_efficiency <
        listMax (g.2.map (·.efficiency_fps_per_watt)) then
        listMax (g.2.map (·.efficiency_fps_per_watt))
      else st.peak_efficiency) = _
    rw [h3]; exact heff.1
  · show (if st.peak_efficiency <
        listMax (g.2.map (·.efficiency_fps_per_watt)) then
        g.2.find? fun m =>
          decide (m.efficiency_fps_per_watt =
            listMax (g.2.map (·.efficiency_fps_per_watt)))
      else st.peak_efficiency_measurement) = _
    rw [h3, h4]; exact heff.2

theorem peak_fold_inv (gs : List (String × List Measurement)) :
    ∀ (st : PeakState) (flat : List Measurement),
      (∀ p ∈ gs, p.2 ≠ [] ∧ ∀ m ∈ p.2,
        0 < m.throughput_fps ∧ 0 < m.efficiency_fps_per_watt) →
      (∀ m ∈ flat, 0 < m.throughput_fps ∧ 0 < m.efficiency_fps_per_watt) →
      st.peak_throughput = listMax (flat.map (·.throughput_fps)) →
      st.peak_throughput_measurement = (flat.find? fun m =>
        decide (m.throughput_fps = listMax (flat.map (·.throughput_fps)))) →
      st.peak_efficiency = listMax (flat.map (·.efficiency_fps_per_watt)) →
      st.peak_efficiency_measurement = (flat.find? fun m =>
        decide (m.efficiency_fps_per_watt =
          listMax (flat.map (·.efficiency_fps_per_watt)))) →
      (gs.foldl peak_step st).peak_throughput =
        listMax ((flat ++ (gs.map Prod.snd).flatten).map (·.throughput_fps)) ∧
      (gs.foldl peak_step st).peak_throughput_measurement =
        ((flat ++ (gs.map Prod.snd).flatten).find? fun m =>
          decide (m.throughput_fps = listMax
            ((flat ++ (gs.map Prod.snd).flatten).map (·.throughput_fps)))) ∧
      (gs.foldl peak_step st).peak_efficiency =
        listMax ((flat ++ (gs.map Prod.snd).flatten).map
          (·.efficiency_fps_per_watt)) ∧
      (gs.foldl peak_step st).peak_efficiency_measurement =
        ((flat ++ (gs.map Prod.snd).flatten).find? fun m =>
          decide (m.efficiency_fps_per_watt = listMax
            ((flat ++ (gs.map Prod.snd).flatten).map
              (·.efficiency_fps_per_watt)))) := by
  induction gs with
  | nil =>
    intro st flat _ _ h1 h2 h3 h4
    simpa using ⟨h1, h2, h3, h4⟩
  | cons g gs ih =>
    intro st flat hgs hflat h1 h2 h3 h4
    have hg := hgs g (List.mem_cons_self _ _)
    have hstep := peak_step_inv st flat g hg.1 hg.2 hflat h1 h2 h3 h4
    have hflat' : ∀ m ∈ flat ++ g.2,
        0 < m.throughput_fps ∧ 0 < m.efficiency_fps_per_watt := by
      intro m hm
      rcases List.mem_append.mp hm with hm | hm
      · exact hflat m hm
      · exact hg.2 m hm
    have := ih (peak_step st g) (flat ++ g.2)
      (fun p hp => hgs p (List.mem_cons_of_mem _ hp)) hflat'
      hstep.1 hstep.2.1 hstep.2.2.1 hstep.2.2.2
    simpa [List.append_assoc] using this

/-- C4: the peak finder groups records by full configuration and,
across all groups, reports as peak throughput the maximum throughput of
all visited records, choosing the first record in iteration order that
attains it; independently it does the same for efficiency, and the
iteration order is a permutation of the input records. -/
theorem c4_peak_finder (ms : List Measurement)
    (hpos : ∀ m ∈ ms,
      0 < m.throughput_fps ∧ 0 < m.efficiency_fps_per_watt) :
    (identify_peak_configurations ms).peak_throughput =
      listMax ((scan_order ms).map (·.throughput_fps)) ∧
    (identify_peak_configurations ms).peak_throughput_measurement =
      ((scan_order ms).find? fun m => decide (m.throughput_fps =
        listMax ((scan_order ms).map (·.throughput_fps)))) ∧
    (identify_peak_configurations ms).peak_efficiency =
      listMax ((scan_order ms).map (·.efficiency_fps_per_watt)) ∧
    (identify_peak_configurations ms).peak_efficiency_measurement =
      ((scan_order ms).find? fun m => decide (m.efficiency_fps_per_watt =
        listMax ((scan_order ms).map (·.efficiency_fps_per_watt)))) ∧
    listMax ((scan_order ms).map (·.throughput_fps)) =
      listMax (ms.map (·.throughput_fps)) ∧
    listMax ((scan_order ms).map (·.efficiency_fps_per_watt)) =
      listMax (ms.map (·.efficiency_fps_per_watt)) ∧
    (scan_order ms).Perm ms := by
  have hperm : (scan_order ms).Perm ms :=
    flatten_groupByKey_perm config_key ms
  have hgs : ∀ p ∈ groupByKey config_key ms, p.2 ≠ [] ∧ ∀ m ∈ p.2,
      0 < m.throughput_fps ∧ 0 < m.efficiency_fps_per_watt := by
    intro p hp
    refine ⟨groups_ne_nil_groupByKey config_key ms p hp, fun m hm => ?_⟩
    exact hpos m (mem_of_mem_groupByKey config_key ms p hp m hm)
  have hfold := peak_fold_inv (groupByKey config_key ms)
    ⟨0, 0, none, none, none, none⟩ [] hgs (by simp) rfl rfl rfl rfl
  simp only [List.nil_append] at hfold
  refine ⟨hfold.1, hfold.2.1, hfold.2.2.1, hfold.2.2.2, ?_, ?_, hperm⟩
  · exact listMax_perm _ _ (hperm.map (·.throughput_fps))
  · exact listMax_perm _ _ (hperm.map (·.efficiency_fps_per_watt))

/-- First record of the C4 witness group: throughput 100, efficiency
5. -/
def c4r1 : Measurement := ⟨"model-a", 1, 1, 10, 100, 20, 5, 40⟩

/-- Second record of the C4 witness group: throughput 150, efficiency
4. -/
def c4r2 : Measurement := ⟨"model-a", 1, 1, 10, 150, 20, 4, 40⟩

/-- Third record of the C4 witness group: throughput 120, efficiency
6. -/
def c4r3 : Measurement := ⟨"model-a", 1, 1, 10, 120, 20, 6, 40⟩

/-- Witness for C4 at the spec's example group: peak throughput 150 at
the second record, peak efficiency 6 at the third record; the two
winners are distinct records. -/
theorem c4_peak_finder_witness :
    (∀ m ∈ [c4r1, c4r2, c4r3],
      0 < m.throughput_fps ∧ 0 < m.efficiency_fps_per_watt) ∧
    (identify_peak_configurations [c4r1, c4r2, c4r3]).peak_throughput =
      listMax ((scan_order [c4r1, c4r2, c4r3]).map (·.throughput_fps)) ∧
    (identify_peak_configurations [c4r1, c4r2, c4r3]).peak_throughput = 150 ∧
    (identify_peak_configurations
      [c4r1, c4r2, c4r3]).peak_throughput_measurement = some c4r2 ∧
    (identify_peak_configurations [c4r1, c4r2, c4r3]).peak_efficiency = 6 ∧
    (identify_peak_configurations
      [c4r1, c4r2, c4r3]).peak_efficiency_measurement = some c4r3 ∧
    c4r2 ≠ c4r3 := by
  have hpos : ∀ m ∈ [c4r1, c4r2, c4r3],
      0 < m.throughput_fps ∧ 0 < m.efficiency_fps_per_watt := by
    intro m hm
    rcases List.mem_cons.mp hm with rfl | hm
    · constructor <;> norm_num [c4r1]
    rcases List.mem_cons.mp hm with rfl | hm
    · constructor <;> norm_num [c4r2]
    rcases List.mem_cons.mp hm with rfl | hm
    · constructor <;> norm_num [c4r3]
    cases hm
  have hg : groupByKey config_key [c4r1, c4r2, c4r3] =
      [(config_key c4r1, [c4r1, c4r2, c4r3])] := rfl
  have hmax_tp : listMax ([c4r1, c4r2, c4r3].map (·.throughput_fps)) = 150 := by
    norm_num [listMax, c4r1, c4r2, c4r3, max_def]
  have hmax_eff : listMax ([c4r1, c4r2, c4r3].map
      (·.efficiency_fps_per_watt)) = 6 := by
    norm_num [listMax, c4r1, c4r2, c4r3, max_def]
  have hid : identify_peak_configurations [c4r1, c4r2, c4r3] =
      peak_step ⟨0, 0, none, none, none, none⟩
        (config_key c4r1, [c4r1, c4r2, c4r3]) := by
    rw [identify_peak_configurations, hg, List.foldl_cons, List.foldl_nil]
  have htp : (identify_peak_configurations
      [c4r1, c4r2, c4r3]).peak_throughput = 150 := by
    rw [hid]
    show (if (0 : Rat) < listMax ([c4r1, c4r2, c4r3].map (·.throughput_fps))
      then listMax ([c4r1, c4r2, c4r3].map (·.throughput_fps)) else 0) = 150
    rw [hmax_tp, if_pos (by norm_num)]
  have htpm : (identify_peak_configurations
      [c4r1, c4r2, c4r3]).peak_throughput_measurement = some c4r2 := by
    rw [hid]
    show (if (0 : Rat) < listMax ([c4r1, c4r2, c4r3].map (·.throughput_fps))
      then [c4r1, c4r2, c4r3].find? fun m => decide (m.throughput_fps =
        listMax ([c4r1, c4r2, c4r3].map (·.throughput_fps)))
      else none) = some c4r2
    rw [hmax_tp, if_pos (by norm_num)]
    norm_num [List.find?, c4r1, c4r2]
  have heff : (identify_peak_configurations
      [c4r1, c4r2, c4r3]).peak_efficiency = 6 := by
    rw [hid]
    show (if (0 : Rat) < listMax ([c4r1, c4r2, c4r3].map
        (·.efficiency_fps_per_watt))
      then listMax ([c4r1, c4r2, c4r3].map (·.efficiency_fps_per_watt))
      else 0) = 6
    rw [hmax_eff, if_pos (by norm_num)]
  have heffm : (identify_peak_configurations
      [c4r1, c4r2, c4r3]).peak_efficiency_measurement = some c4r3 := by
    rw [hid]
    show (if (0 : Rat) < listMax ([c4r1, c4r2, c4r3].map
        (·.efficiency_fps_per_watt))
      then [c4r1, c4r2, c4r3].find? fun m => decide (m.efficiency_fps_per_watt =
        listMax ([c4r1, c4r2, c4r3].map (·.efficiency_fps_per_watt)))
      else none) = some c4r3
    rw [hmax_eff, if_pos (by norm_num)]
    norm_num [List.find?, c4r1, c4r2, c4r3]
  refine ⟨hpos, (c4_peak_finder [c4r1, c4r2, c4r3] hpos).1, htp, htpm, heff,
    heffm, ?_⟩
  intro h
  have := congrArg Measurement.throughput_fps h
  norm_num [c4r2, c4r3] at this

end Bench
